import Mathlib

/-!
Verification of `voicevox_ros2` (file `tts_node.py`) against its
natural-language specification.

The embedding below translates the pure fragments of the node into Lean:

* `pythonIsSpace` models the Python regex class `\s` (Unicode whitespace as
  matched by `re` on `str` inputs).
* `speakerTagMatch` models matching `SPEAKER_PREFIX_RE = ^\s*\[(\d+)\]\s*(.*)$`
  (tts_node.py line 16) with Python `re.match` semantics: `^` anchors at the
  start, `.` does not match a newline, `$` matches at the end of the string or
  just before a single trailing newline, and the greedy `\s*` / `.*` engine
  backtracks.  For this pattern the backtracking search is equivalent to the
  deterministic computation below (maximal whitespace runs, maximal digit run).
  `\d` is modelled as the Unicode decimal digits (category Nd), the class
  CPython's `re` module uses for `\d` on `str` patterns, and `int()` on the
  captured digits interprets each digit by its value inside its Nd run.
* `parse_speaker_and_text` models `VoicevoxTTSNode.parse_speaker_and_text`
  (lines 134-147), `on_text_received` models the subscriber callback
  (lines 149-173) with the external synthesizer, `soundfile.read` and
  `sounddevice` playback as oracles, and the filesystem searches
  `find_onnxruntime_lib` / `find_openjtalk_dict_dir` / `find_vvm_path`
  (lines 19-69) run over an explicit directory tree with `os.walk`
  modelled as a top-down traversal in listing order.
-/

namespace VoicevoxRos2

/-- Python `re` class `\s` on `str`: Unicode whitespace. -/
def pythonIsSpace (c : Char) : Bool :=
  let n := c.toNat
  n == 0x20 || n == 0x9 || n == 0xa || n == 0xb || n == 0xc || n == 0xd ||
  (0x1c ≤ n && n ≤ 0x1f) || n == 0x85 || n == 0xa0 || n == 0x1680 ||
  (0x2000 ≤ n && n ≤ 0x200a) || n == 0x2028 || n == 0x2029 || n == 0x202f ||
  n == 0x205f || n == 0x3000

/-- Start code points of the runs of Unicode decimal digits (category Nd,
Unicode 14.0 as shipped with CPython 3.11): each run covers ten consecutive
code points with digit values 0-9 (the mathematical digits 0x1D7CE-0x1D7FF
form five such runs). -/
def ndBases : List Nat :=
  [0x30, 0x660, 0x6F0, 0x7C0, 0x966, 0x9E6, 0xA66, 0xAE6, 0xB66, 0xBE6,
   0xC66, 0xCE6, 0xD66, 0xDE6, 0xE50, 0xED0, 0xF20, 0x1040, 0x1090, 0x17E0,
   0x1810, 0x1946, 0x19D0, 0x1A80, 0x1A90, 0x1B50, 0x1BB0, 0x1C40, 0x1C50,
   0xA620, 0xA8D0, 0xA900, 0xA9D0, 0xA9F0, 0xAA50, 0xABF0, 0xFF10, 0x104A0,
   0x10D30, 0x11066, 0x110F0, 0x11136, 0x111D0, 0x112F0, 0x11450, 0x114D0,
   0x11650, 0x116C0, 0x11730, 0x118E0, 0x11950, 0x11C50, 0x11D50, 0x11DA0,
   0x16A60, 0x16AC0, 0x16B50, 0x1D7CE, 0x1D7D8, 0x1D7E2, 0x1D7EC, 0x1D7F6,
   0x1E140, 0x1E2F0, 0x1E950, 0x1FBF0]

/-- Base of the Nd digit run containing code point `n`, if any. -/
def ndBase (n : Nat) : Option Nat :=
  ndBases.find? fun b => b ≤ n && n < b + 10

/-- Python `re` class `\d` on `str`: Unicode decimal digits (category Nd). -/
def pythonIsDigit (c : Char) : Bool :=
  (ndBase c.toNat).isSome

/-- Numeric value of a Unicode decimal digit: its offset inside its Nd run
(Python `int` digit handling; the value on non-digits is irrelevant, the
capture group only ever holds digits). -/
def pythonDigitVal (c : Char) : Int :=
  match ndBase c.toNat with
  | some b => ((c.toNat - b : Nat) : Int)
  | none => 0

/-- Python `int(s)` on a string of decimal digits, base 10. -/
def pythonIntOfDigits (ds : List Char) : Int :=
  ds.foldl (fun acc c => 10 * acc + pythonDigitVal c) 0

/-- Model of `SPEAKER_PREFIX_RE.match(raw)` (tts_node.py line 16): result of matching
`^\s*\[(\d+)\]\s*(.*)$` against `raw`, returning `(int(group 1), group 2)` on
success.  The deterministic computation is equivalent to the backtracking
regex engine on this pattern:

* `^\s*` consumes the maximal leading whitespace run (backtracking cannot help
  because the next pattern char `[` is not whitespace);
* `(\d+)` captures the maximal decimal-digit run, which must be nonempty and
  be followed by `]`;
* `\s*(.*)$` succeeds on the remainder `rest` iff, after dropping the maximal
  whitespace run (yielding `r`), `r` contains no newline except possibly as
  its single last character; group 2 is then `r` minus that trailing newline.
  (Any successful backtracking split can be pushed to the maximal-whitespace
  split, which the greedy engine tries first.) -/
def speakerTagMatch (raw : List Char) : Option (Int × List Char) :=
  match raw.dropWhile pythonIsSpace with
  | [] => none
  | c :: s2 =>
    if c = '[' then
      if s2.takeWhile pythonIsDigit = [] then none
      else
        match s2.drop (s2.takeWhile pythonIsDigit).length with
        | [] => none
        | b :: rest =>
          if b = ']' then
            if '\n' ∈ (rest.dropWhile pythonIsSpace).dropLast then none
            else if (rest.dropWhile pythonIsSpace).getLast? = some '\n' then
              some (pythonIntOfDigits (s2.takeWhile pythonIsDigit),
                (rest.dropWhile pythonIsSpace).dropLast)
            else
              some (pythonIntOfDigits (s2.takeWhile pythonIsDigit),
                rest.dropWhile pythonIsSpace)
          else none
    else none

/-- Model of `VoicevoxTTSNode.parse_speaker_and_text` (tts_node.py lines 134-147):
if the regex matches, return `(int(group 1), group 2)`; otherwise return
`(self.default_style_id, raw_text)`. -/
def parse_speaker_and_text (defaultStyleId : Int) (raw : List Char) :
    Int × List Char :=
  match speakerTagMatch raw with
  | some p => p
  | none => (defaultStyleId, raw)

/-- The raw message starts (after optional whitespace) with a bracket token
`[digits]`: the structural notion of a leading speaker selector. -/
def hasLeadingBracketToken (raw : List Char) : Bool :=
  match raw.dropWhile pythonIsSpace with
  | [] => false
  | c :: s2 =>
    c == '[' && !(s2.takeWhile pythonIsDigit).isEmpty &&
      (match s2.drop (s2.takeWhile pythonIsDigit).length with
       | b :: _ => b == ']'
       | [] => false)


/-! ## The subscriber callback `on_text_received` (tts_node.py lines 149-173)

The callback reads `self.default_style_id` and `self.synthesizer` and assigns
no attribute; the external calls (`self.synthesizer.tts`, `soundfile.read`,
`sounddevice.play` + `sounddevice.wait`) are oracles that either return a
value or raise.  The embedding records the observable steps as a trace and
threads the node state explicitly. -/

/-- One observable step of the callback: the two log calls, the synthesis
call, the audio decoding (`sf.read`), and the playback (`sd.play`+`sd.wait`). -/
inductive Step where
  | logWarn : Step
  | logInfo (styleId : Int) (text : List Char) : Step
  | synthesize (text : List Char) (styleId : Int) : Step
  | decodeAudio (wav : List Nat) : Step
  | play (samples : List Int) (sampleRate : Nat) : Step
  | logError : Step
deriving DecidableEq, Repr

/-- Node state read by the callback: `self.default_style_id` and
`self.synthesizer` (its `tts` method, which may raise — modelled as
`Except`). -/
structure NodeState where
  defaultStyleId : Int
  tts : List Char → Int → Except String (List Nat)

/-- The module-level audio collaborators: `soundfile.read` (wav bytes →
samples and sample rate, may raise) and `sounddevice` playback (may raise). -/
structure AudioEnv where
  sfRead : List Nat → Except String (List Int × Nat)
  play : List Int → Nat → Except String Unit

/-- Model of `VoicevoxTTSNode.on_text_received` (tts_node.py lines 149-173).
Returns the node state after the call together with the trace of observable
steps.  The method assigns no attribute of `self`, so the state component is
the input state; every exception raised inside the `try` block is caught by
the `except` clause, which logs and returns. -/
def on_text_received (env : AudioEnv) (st : NodeState) (raw : List Char) :
    NodeState × List Step :=
  if raw = [] then (st, [])
  else
    let sid := (parse_speaker_and_text st.defaultStyleId raw).1
    let text := (parse_speaker_and_text st.defaultStyleId raw).2
    if text = [] then (st, [Step.logWarn])
    else
      (st, Step.logInfo sid text :: Step.synthesize text sid ::
        match st.tts text sid with
        | .error _ => [Step.logError]
        | .ok wav =>
          Step.decodeAudio wav ::
            match env.sfRead wav with
            | .error _ => [Step.logError]
            | .ok (data, sr) =>
              Step.play data sr ::
                match env.play data sr with
                | .error _ => [Step.logError]
                | .ok _ => [])

/-- Handling a sequence of inbound messages one after the other, threading
the node state. -/
def processAll (env : AudioEnv) (st : NodeState) :
    List (List Char) → NodeState × List (List Step)
  | [] => (st, [])
  | m :: ms =>
    let r := on_text_received env st m
    let rest := processAll env r.1 ms
    (rest.1, r.2 :: rest.2)

/-- Concrete collaborators whose every external call raises, for exercising
the failure paths on concrete inputs. -/
def failEnv : AudioEnv :=
  ⟨fun _ => Except.error "sf error", fun _ _ => Except.error "sd error"⟩

/-- Concrete node state with default style id 0 whose synthesizer raises on
every call. -/
def failTTSNode : NodeState :=
  ⟨0, fun _ _ => Except.error "synthesis error"⟩

/-! ## Asset discovery (tts_node.py lines 19-69)

`os.walk(engine_dir)` over an explicit directory tree: an entry is a file or
a directory with its own entries, in listing order.  `os.walk` is top-down:
it yields `(root, dirnames, filenames)` for a directory and then recurses
into each subdirectory in order. -/

/-- A directory entry: a file name, or a subdirectory with its entries in
listing order. -/
inductive Dirent where
  | file (name : String) : Dirent
  | dir (name : String) (entries : List Dirent) : Dirent
deriving Repr

/-- Names of the subdirectories among `es`, in listing order (`dirnames`). -/
def subdirNames (es : List Dirent) : List String :=
  es.filterMap fun e =>
    match e with
    | .dir n _ => some n
    | .file _ => none

/-- Names of the files among `es`, in listing order (`filenames`). -/
def fileNames (es : List Dirent) : List String :=
  es.filterMap fun e =>
    match e with
    | .file n => some n
    | .dir _ _ => none

/-- The `os.walk` triples produced below the root for the entries `es`:
for each subdirectory, its own triple followed by its descendants. -/
def walkList (root : String) : List Dirent → List (String × List String × List String)
  | [] => []
  | .file _ :: rest => walkList root rest
  | .dir n sub :: rest =>
    ((root ++ "/" ++ n, subdirNames sub, fileNames sub) ::
      walkList (root ++ "/" ++ n) sub) ++ walkList root rest

/-- Model of `os.walk(root)` for a directory whose entries are `es`: the root triple
first, then the recursive triples in listing order. -/
def walkDir (root : String) (es : List Dirent) :
    List (String × List String × List String) :=
  (root, subdirNames es, fileNames es) :: walkList root es

/-- The loop `for root, dirs, files in os.walk(...): if target in files:
return os.path.join(root, target)`. -/
def searchFiles : List (String × List String × List String) → String → Option String
  | [], _ => none
  | (root, _, files) :: rest, target =>
    if target ∈ files then some (root ++ "/" ++ target) else searchFiles rest target

/-- The same loop testing `if target in dirs`. -/
def searchDirs : List (String × List String × List String) → String → Option String
  | [], _ => none
  | (root, ds, _) :: rest, target =>
    if target ∈ ds then some (root ++ "/" ++ target) else searchDirs rest target

/-- The error raised by the search functions (Python `FileNotFoundError`
whose message interpolates the target name and the root directory). -/
structure AssetError where
  kind : String
  rootDir : String
  name : String
deriving DecidableEq, Repr

/-- Model of `find_onnxruntime_lib` (tts_node.py lines 19-34): walk `engine_dir`
looking for the file named `targetName` (`Onnxruntime.LIB_VERSIONED_FILENAME`,
an external constant, hence a parameter); raise `FileNotFoundError` if the
walk is exhausted. -/
def find_onnxruntime_lib (engineDir : String) (fs : List Dirent)
    (targetName : String) : Except AssetError String :=
  match searchFiles (walkDir engineDir fs) targetName with
  | some p => .ok p
  | none => .error ⟨"onnxruntime", engineDir, targetName⟩

/-- The fixed dictionary directory name searched by
`find_openjtalk_dict_dir` (tts_node.py line 42). -/
def openJtalkDictDirName : String := "open_jtalk_dic_utf_8-1.11"

/-- Model of `find_openjtalk_dict_dir` (tts_node.py lines 36-53): walk `engine_dir`
looking for a directory named `open_jtalk_dic_utf_8-1.11`. -/
def find_openjtalk_dict_dir (engineDir : String) (fs : List Dirent) :
    Except AssetError String :=
  match searchDirs (walkDir engineDir fs) openJtalkDictDirName with
  | some p => .ok p
  | none => .error ⟨"openjtalk_dict", engineDir, openJtalkDictDirName⟩

/-- Model of `find_vvm_path` (tts_node.py lines 55-69): walk `engine_dir` looking for
the file named `vvm_file`. -/
def find_vvm_path (engineDir : String) (fs : List Dirent) (vvmFile : String) :
    Except AssetError String :=
  match searchFiles (walkDir engineDir fs) vvmFile with
  | some p => .ok p
  | none => .error ⟨"vvm", engineDir, vvmFile⟩

/-- Some entry (file or directory) anywhere in the tree has the given name. -/
def occursIn (target : String) : List Dirent → Bool
  | [] => false
  | .file n :: rest => n == target || occursIn target rest
  | .dir n sub :: rest => n == target || occursIn target sub || occursIn target rest

/-! ## Decoder lemmas -/

theorem takeWhile_all_append (p : Char → Bool) :
    ∀ (ds : List Char) (b : Char) (r : List Char),
      (∀ c ∈ ds, p c = true) → p b = false →
      (ds ++ b :: r).takeWhile p = ds
  | [], b, r, _, hb => by simp [List.takeWhile_cons, hb]
  | d :: ds, b, r, hall, hb => by
    have hd : p d = true := hall d (by simp)
    simp only [List.cons_append, List.takeWhile_cons, hd, if_true]
    rw [takeWhile_all_append p ds b r (fun c hc => hall c (by simp [hc])) hb]

theorem dropWhile_all_nil (p : Char → Bool) :
    ∀ (l : List Char), (∀ c ∈ l, p c = true) → l.dropWhile p = []
  | [], _ => rfl
  | c :: l, hall => by
    have hc : p c = true := hall c (by simp)
    simp only [List.dropWhile_cons, hc, if_true]
    exact dropWhile_all_nil p l (fun x hx => hall x (by simp [hx]))

/-- Key characterization of a successful match: a payload of the shape
`"[" ++ digits ++ "] " ++ t`, where `t` starts with a non-whitespace
character and contains no newline, matches with `styleId` the value of the
digits and `text = t`. -/
theorem tagMatch_of_clean_payload (ds : List Char) (c : Char) (t : List Char)
    (hds : ds ≠ []) (hdig : ∀ x ∈ ds, pythonIsDigit x = true)
    (hc : pythonIsSpace c = false) (hn : '\n' ∉ c :: t) :
    speakerTagMatch ('[' :: (ds ++ ']' :: ' ' :: c :: t)) =
      some (pythonIntOfDigits ds, c :: t) := by
  have hb : pythonIsSpace '[' = false := by decide
  have h1 : ('[' :: (ds ++ ']' :: ' ' :: c :: t)).dropWhile pythonIsSpace
      = '[' :: (ds ++ ']' :: ' ' :: c :: t) := by
    simp [List.dropWhile_cons, hb]
  have h2 : (ds ++ ']' :: ' ' :: c :: t).takeWhile pythonIsDigit = ds :=
    takeWhile_all_append _ _ _ _ hdig (by decide)
  have h3 : (ds ++ ']' :: ' ' :: c :: t).drop ds.length = ']' :: ' ' :: c :: t :=
    List.drop_left ds (']' :: ' ' :: c :: t)
  have hsp : pythonIsSpace ' ' = true := by decide
  have h4 : (' ' :: c :: t).dropWhile pythonIsSpace = c :: t := by
    simp [List.dropWhile_cons, hsp, hc]
  have h5 : '\n' ∉ (c :: t).dropLast := fun hm =>
    hn ((List.dropLast_sublist (c :: t)).subset hm)
  have h6 : ¬ (c :: t).getLast? = some '\n' := by
    intro he
    obtain ⟨hne, hx⟩ :=
      @List.mem_getLast?_eq_getLast Char (c :: t) '\n' (Option.mem_def.mpr he)
    exact hn (hx ▸ List.getLast_mem hne)
  unfold speakerTagMatch
  rw [h1]
  simp only [h2, h3, h4, if_neg hds, if_neg h5, if_neg h6]
  simp

/-- If the regex matched, the raw message had a leading bracket token. -/
theorem token_of_tagMatch (raw : List Char) (p : Int × List Char)
    (h : speakerTagMatch raw = some p) : hasLeadingBracketToken raw = true := by
  unfold speakerTagMatch at h
  unfold hasLeadingBracketToken
  split at h
  next hd => exact absurd h (by simp)
  next c s2 hd =>
    split at h
    case isTrue hc =>
      split at h
      case isTrue hds => exact absurd h (by simp)
      case isFalse hds =>
        split at h
        next hdrop => exact absurd h (by simp)
        next b rest hdrop =>
          split at h
          case isTrue hb =>
            simp only [hd, hdrop]
            simp [hc, hb, List.isEmpty_iff, hds]
          case isFalse hb => exact absurd h (by simp)
    case isFalse hc => exact absurd h (by simp)

/-- If the raw message has no leading bracket token, the regex does not
match and the decoder falls back to the default style id, returning the raw
text verbatim. -/
theorem parse_default_of_no_token (d : Int) (raw : List Char)
    (h : hasLeadingBracketToken raw = false) :
    parse_speaker_and_text d raw = (d, raw) := by
  unfold parse_speaker_and_text
  cases hm : speakerTagMatch raw with
  | none => rfl
  | some p => rw [token_of_tagMatch raw p hm] at h; cases h

theorem pythonDigitVal_nonneg (c : Char) : 0 ≤ pythonDigitVal c := by
  unfold pythonDigitVal
  cases hb : ndBase c.toNat with
  | none => simp
  | some b => simp

theorem pythonIntOfDigits_nonneg :
    ∀ (ds : List Char), (∀ c ∈ ds, pythonIsDigit c = true) →
      0 ≤ pythonIntOfDigits ds := by
  have aux : ∀ (ds : List Char) (acc : Int), 0 ≤ acc →
      0 ≤ ds.foldl (fun a c => 10 * a + pythonDigitVal c) acc := by
    intro ds
    induction ds with
    | nil => intro acc hacc; simpa using hacc
    | cons c ds ih =>
      intro acc hacc
      have hdv : 0 ≤ pythonDigitVal c := pythonDigitVal_nonneg c
      simp only [List.foldl_cons]
      exact ih (10 * acc + pythonDigitVal c) (by omega)
  intro ds _
  exact aux ds 0 le_rfl

/-- A successful match always yields a non-negative style id: the capture
group consists of digit characters only. -/
theorem tagMatch_nonneg (raw : List Char) (n : Int) (t : List Char)
    (h : speakerTagMatch raw = some (n, t)) : 0 ≤ n := by
  unfold speakerTagMatch at h
  split at h
  next => exact absurd h (by simp)
  next c s2 hd =>
    split at h
    case isFalse hc => exact absurd h (by simp)
    case isTrue hc =>
      split at h
      case isTrue hds => exact absurd h (by simp)
      case isFalse hds =>
        have hall : ∀ x ∈ s2.takeWhile pythonIsDigit, pythonIsDigit x = true :=
          fun x hx => List.mem_takeWhile_imp hx
        split at h
        next => exact absurd h (by simp)
        next b rest hdrop =>
          split at h
          case isFalse hb => exact absurd h (by simp)
          case isTrue hb =>
            split at h
            case isTrue => exact absurd h (by simp)
            case isFalse =>
              split at h
              case isTrue =>
                injection h with h2
                have hn2 : pythonIntOfDigits (s2.takeWhile pythonIsDigit) = n :=
                  congrArg Prod.fst h2
                rw [← hn2]
                exact pythonIntOfDigits_nonneg _ hall
              case isFalse =>
                injection h with h2
                have hn2 : pythonIntOfDigits (s2.takeWhile pythonIsDigit) = n :=
                  congrArg Prod.fst h2
                rw [← hn2]
                exact pythonIntOfDigits_nonneg _ hall

/-! ## Handler lemmas -/

/-- The callback assigns no attribute: the node state after any call is the
state before it. -/
theorem on_text_received_state (env : AudioEnv) (st : NodeState) (raw : List Char) :
    (on_text_received env st raw).1 = st := by
  simp only [on_text_received]
  split
  · rfl
  · split
    · rfl
    · rfl

/-- An all-whitespace payload has no bracket token, so the regex does not
match. -/
theorem tagMatch_none_of_all_space (raw : List Char)
    (h : raw.all pythonIsSpace = true) : speakerTagMatch raw = none := by
  have hall : ∀ c ∈ raw, pythonIsSpace c = true := by
    intro c hc
    exact List.all_eq_true.mp h c hc
  unfold speakerTagMatch
  rw [dropWhile_all_nil pythonIsSpace raw hall]

/-- If the synthesizer raises for the decoded text, the callback logs the
info line, records the synthesis attempt, catches the exception and logs it,
and performs no audio decoding and no playback. -/
theorem on_text_received_synth_error (env : AudioEnv) (st : NodeState)
    (raw : List Char) (e : String) (h1 : raw ≠ [])
    (h2 : (parse_speaker_and_text st.defaultStyleId raw).2 ≠ [])
    (h3 : st.tts (parse_speaker_and_text st.defaultStyleId raw).2
      (parse_speaker_and_text st.defaultStyleId raw).1 = .error e) :
    on_text_received env st raw =
      (st, [Step.logInfo (parse_speaker_and_text st.defaultStyleId raw).1
              (parse_speaker_and_text st.defaultStyleId raw).2,
            Step.synthesize (parse_speaker_and_text st.defaultStyleId raw).2
              (parse_speaker_and_text st.defaultStyleId raw).1,
            Step.logError]) := by
  simp only [on_text_received, if_neg h1, if_neg h2, h3]

/-- If the payload is nonempty but decodes to empty text, the callback only
logs a warning and discards the message. -/
theorem on_text_received_empty_text (env : AudioEnv) (st : NodeState)
    (raw : List Char) (h1 : raw ≠ [])
    (h2 : (parse_speaker_and_text st.defaultStyleId raw).2 = []) :
    on_text_received env st raw = (st, [Step.logWarn]) := by
  simp only [on_text_received, if_neg h1, if_pos h2]

/-- Every trace of the callback has one of six shapes, each respecting the
order decode → synthesize → decode audio → play. -/
theorem on_text_received_shapes (env : AudioEnv) (st : NodeState)
    (raw : List Char) :
    (on_text_received env st raw).2 = [] ∨
    (on_text_received env st raw).2 = [Step.logWarn] ∨
    (∃ t s, (on_text_received env st raw).2 =
      [Step.logInfo s t, Step.synthesize t s, Step.logError]) ∨
    (∃ t s w, (on_text_received env st raw).2 =
      [Step.logInfo s t, Step.synthesize t s, Step.decodeAudio w,
       Step.logError]) ∨
    (∃ t s w d r, (on_text_received env st raw).2 =
      [Step.logInfo s t, Step.synthesize t s, Step.decodeAudio w,
       Step.play d r, Step.logError]) ∨
    (∃ t s w d r, (on_text_received env st raw).2 =
      [Step.logInfo s t, Step.synthesize t s, Step.decodeAudio w,
       Step.play d r]) := by
  simp only [on_text_received]
  split
  · exact Or.inl rfl
  · split
    · exact Or.inr (Or.inl rfl)
    · cases htts : st.tts (parse_speaker_and_text st.defaultStyleId raw).2
        (parse_speaker_and_text st.defaultStyleId raw).1 with
      | error e =>
        simp only [htts]
        exact Or.inr (Or.inr (Or.inl ⟨_, _, rfl⟩))
      | ok wav =>
        simp only [htts]
        cases hsf : env.sfRead wav with
        | error e =>
          simp only [hsf]
          exact Or.inr (Or.inr (Or.inr (Or.inl ⟨_, _, _, rfl⟩)))
        | ok pr =>
          simp only [hsf]
          cases hpl : env.play pr.1 pr.2 with
          | error e =>
            simp only [hpl]
            exact Or.inr (Or.inr (Or.inr (Or.inr (Or.inl
              ⟨(parse_speaker_and_text st.defaultStyleId raw).2,
               (parse_speaker_and_text st.defaultStyleId raw).1,
               wav, pr.1, pr.2, rfl⟩))))
          | ok u =>
            simp only [hpl]
            exact Or.inr (Or.inr (Or.inr (Or.inr (Or.inr
              ⟨(parse_speaker_and_text st.defaultStyleId raw).2,
               (parse_speaker_and_text st.defaultStyleId raw).1,
               wav, pr.1, pr.2, rfl⟩))))

/-- Messages are handled independently: handling a whole sequence leaves the
node state unchanged and each message produces exactly the trace it would
produce on its own. -/
theorem processAll_state_and_traces (env : AudioEnv) (st : NodeState)
    (msgs : List (List Char)) :
    processAll env st msgs =
      (st, msgs.map fun m => (on_text_received env st m).2) := by
  induction msgs with
  | nil => rfl
  | cons m ms ih =>
    simp only [processAll, List.map_cons, on_text_received_state, ih]

/-! ## Filesystem lemmas -/

theorem searchFiles_append (t : String) :
    ∀ (a b : List (String × List String × List String)),
      searchFiles (a ++ b) t = ((searchFiles a t).or (searchFiles b t))
  | [], b => by simp [searchFiles]
  | (root, ds, fs) :: a, b => by
    by_cases hmem : t ∈ fs
    · simp [searchFiles, hmem]
    · simp [searchFiles, hmem, searchFiles_append t a b]

theorem searchDirs_append (t : String) :
    ∀ (a b : List (String × List String × List String)),
      searchDirs (a ++ b) t = ((searchDirs a t).or (searchDirs b t))
  | [], b => by simp [searchDirs]
  | (root, ds, fs) :: a, b => by
    by_cases hmem : t ∈ ds
    · simp [searchDirs, hmem]
    · simp [searchDirs, hmem, searchDirs_append t a b]

theorem not_mem_fileNames (t : String) :
    ∀ es, occursIn t es = false → t ∉ fileNames es
  | [], _ => by simp [fileNames]
  | .file n :: rest, h => by
    simp only [occursIn, Bool.or_eq_false_iff] at h
    simp only [fileNames, List.filterMap_cons, Option.some.injEq]
    intro hmem
    rcases List.mem_cons.mp hmem with he | hm
    · rw [he] at h
      simp at h
    · exact not_mem_fileNames t rest h.2 hm
  | .dir n sub :: rest, h => by
    simp only [occursIn, Bool.or_eq_false_iff] at h
    simp only [fileNames, List.filterMap_cons]
    exact not_mem_fileNames t rest h.2

theorem not_mem_subdirNames (t : String) :
    ∀ es, occursIn t es = false → t ∉ subdirNames es
  | [], _ => by simp [subdirNames]
  | .file n :: rest, h => by
    simp only [occursIn, Bool.or_eq_false_iff] at h
    simp only [subdirNames, List.filterMap_cons]
    exact not_mem_subdirNames t rest h.2
  | .dir n sub :: rest, h => by
    simp only [occursIn, Bool.or_eq_false_iff] at h
    simp only [subdirNames, List.filterMap_cons]
    intro hmem
    rcases List.mem_cons.mp hmem with he | hm
    · rw [he] at h
      simp at h
    · exact not_mem_subdirNames t rest h.2 hm

theorem searchFiles_walkList_none (t : String) :
    ∀ (k : Nat) (es : List Dirent) (root : String), sizeOf es ≤ k →
      occursIn t es = false → searchFiles (walkList root es) t = none := by
  intro k
  induction k with
  | zero =>
    intro es root hsize _
    exact absurd hsize (by cases es <;> simp)
  | succ k ih =>
    intro es root hsize hocc
    match es with
    | [] => simp [walkList, searchFiles]
    | .file n :: rest =>
      simp only [occursIn, Bool.or_eq_false_iff] at hocc
      simp only [walkList]
      refine ih rest root ?_ hocc.2
      simp only [List.cons.sizeOf_spec, Dirent.file.sizeOf_spec] at hsize ⊢
      omega
    | .dir n sub :: rest =>
      simp only [occursIn, Bool.or_eq_false_iff] at hocc
      have hsub : sizeOf sub ≤ k := by
        simp only [List.cons.sizeOf_spec, Dirent.dir.sizeOf_spec] at hsize
        omega
      have hrest : sizeOf rest ≤ k := by
        simp only [List.cons.sizeOf_spec, Dirent.dir.sizeOf_spec] at hsize
        omega
      simp only [walkList, List.cons_append, searchFiles]
      rw [if_neg (not_mem_fileNames t sub hocc.1.2)]
      rw [searchFiles_append, ih sub _ hsub hocc.1.2, ih rest root hrest hocc.2]
      rfl

theorem searchDirs_walkList_none (t : String) :
    ∀ (k : Nat) (es : List Dirent) (root : String), sizeOf es ≤ k →
      occursIn t es = false → searchDirs (walkList root es) t = none := by
  intro k
  induction k with
  | zero =>
    intro es root hsize _
    exact absurd hsize (by cases es <;> simp)
  | succ k ih =>
    intro es root hsize hocc
    match es with
    | [] => simp [walkList, searchDirs]
    | .file n :: rest =>
      simp only [occursIn, Bool.or_eq_false_iff] at hocc
      simp only [walkList]
      refine ih rest root ?_ hocc.2
      simp only [List.cons.sizeOf_spec, Dirent.file.sizeOf_spec] at hsize ⊢
      omega
    | .dir n sub :: rest =>
      simp only [occursIn, Bool.or_eq_false_iff] at hocc
      have hsub : sizeOf sub ≤ k := by
        simp only [List.cons.sizeOf_spec, Dirent.dir.sizeOf_spec] at hsize
        omega
      have hrest : sizeOf rest ≤ k := by
        simp only [List.cons.sizeOf_spec, Dirent.dir.sizeOf_spec] at hsize
        omega
      simp only [walkList, List.cons_append, searchDirs]
      rw [if_neg (not_mem_subdirNames t sub hocc.1.2)]
      rw [searchDirs_append, ih sub _ hsub hocc.1.2, ih rest root hrest hocc.2]
      rfl

/-- A full walk of a tree containing no entry with name `t` finds no file
named `t`. -/
theorem searchFiles_walkDir_none (t root : String) (es : List Dirent)
    (hocc : occursIn t es = false) :
    searchFiles (walkDir root es) t = none := by
  simp only [walkDir, searchFiles]
  rw [if_neg (not_mem_fileNames t es hocc)]
  exact searchFiles_walkList_none t (sizeOf es) es root le_rfl hocc

/-- A full walk of a tree containing no entry with name `t` finds no
directory named `t`. -/
theorem searchDirs_walkDir_none (t root : String) (es : List Dirent)
    (hocc : occursIn t es = false) :
    searchDirs (walkDir root es) t = none := by
  simp only [walkDir, searchDirs]
  rw [if_neg (not_mem_subdirNames t es hocc)]
  exact searchDirs_walkList_none t (sizeOf es) es root le_rfl hocc

/-- The file-search loop returns the path built from the first walk triple
whose file list contains the target (`List.find?` semantics). -/
theorem searchFiles_eq_find (t : String) :
    ∀ (wl : List (String × List String × List String)),
      searchFiles wl t =
        (wl.find? (fun tr => decide (t ∈ tr.2.2))).map
          (fun tr => tr.1 ++ "/" ++ t)
  | [] => rfl
  | (root, ds, fs) :: rest => by
    by_cases hmem : t ∈ fs
    · simp [searchFiles, List.find?_cons, hmem]
    · simp [searchFiles, List.find?_cons, hmem, searchFiles_eq_find t rest]

/-- The directory-search loop returns the path built from the first walk
triple whose directory list contains the target. -/
theorem searchDirs_eq_find (t : String) :
    ∀ (wl : List (String × List String × List String)),
      searchDirs wl t =
        (wl.find? (fun tr => decide (t ∈ tr.2.1))).map
          (fun tr => tr.1 ++ "/" ++ t)
  | [] => rfl
  | (root, ds, fs) :: rest => by
    by_cases hmem : t ∈ ds
    · simp [searchDirs, List.find?_cons, hmem]
    · simp [searchDirs, List.find?_cons, hmem, searchDirs_eq_find t rest]

/-- A payload with a leading bracket token whose text part contains an inner
newline defeats the whole regex: `.*` cannot span the newline and `$` only
tolerates a single trailing one. -/
theorem tagMatch_none_of_inner_newline (ds : List Char) (c : Char)
    (t : List Char) (hds : ds ≠ [])
    (hdig : ∀ x ∈ ds, pythonIsDigit x = true)
    (hc : pythonIsSpace c = false)
    (hn : '\n' ∈ (c :: t).dropLast) :
    speakerTagMatch ('[' :: (ds ++ ']' :: ' ' :: c :: t)) = none := by
  have hb : pythonIsSpace '[' = false := by decide
  have h1 : ('[' :: (ds ++ ']' :: ' ' :: c :: t)).dropWhile pythonIsSpace
      = '[' :: (ds ++ ']' :: ' ' :: c :: t) := by
    simp [List.dropWhile_cons, hb]
  have h2 : (ds ++ ']' :: ' ' :: c :: t).takeWhile pythonIsDigit = ds :=
    takeWhile_all_append _ _ _ _ hdig (by decide)
  have h3 : (ds ++ ']' :: ' ' :: c :: t).drop ds.length = ']' :: ' ' :: c :: t :=
    List.drop_left ds (']' :: ' ' :: c :: t)
  have hsp : pythonIsSpace ' ' = true := by decide
  have h4 : (' ' :: c :: t).dropWhile pythonIsSpace = c :: t := by
    simp [List.dropWhile_cons, hsp, hc]
  unfold speakerTagMatch
  rw [h1]
  simp only [h2, h3, h4, if_neg hds, if_pos hn]
  simp

/-- A payload whose first character is neither whitespace nor `[` has no
leading bracket token. -/
theorem no_token_of_head (c : Char) (u : List Char)
    (hc : pythonIsSpace c = false) (hb : c ≠ '[') :
    hasLeadingBracketToken (c :: u) = false := by
  unfold hasLeadingBracketToken
  rw [List.dropWhile_cons, if_neg (by simp [hc])]
  simp [hb]

/-- On a nonempty payload decoding to nonempty text the callback logs the
info line and attempts synthesis. -/
theorem on_text_received_synth_attempt (env : AudioEnv) (st : NodeState)
    (raw : List Char) (h1 : raw ≠ [])
    (h2 : (parse_speaker_and_text st.defaultStyleId raw).2 ≠ []) :
    ∃ rest, (on_text_received env st raw).2 =
      Step.logInfo (parse_speaker_and_text st.defaultStyleId raw).1
          (parse_speaker_and_text st.defaultStyleId raw).2 ::
        Step.synthesize (parse_speaker_and_text st.defaultStyleId raw).2
          (parse_speaker_and_text st.defaultStyleId raw).1 :: rest := by
  simp only [on_text_received, if_neg h1, if_neg h2]
  exact ⟨_, rfl⟩

/-! ## Claims -/

/-- C1, amended: for every `n ≥ 0` (given by a nonempty ASCII digit string)
and nonempty `t` whose first character is not whitespace and which contains
no newline, `decode("[n] " + t, d) = (n, t)`; and for every payload with no
leading bracket token, decoding yields `(d, t)` with `t` verbatim.  (The
original claim, for arbitrary nonempty `t`, is refuted by
`claim1_counterexample`.) -/
theorem claim1_prefix_decode :
    (∀ (d : Int) (ds : List Char) (c : Char) (t : List Char),
        ds ≠ [] → (∀ x ∈ ds, pythonIsDigit x = true) → pythonIsSpace c = false →
        '\n' ∉ c :: t →
        parse_speaker_and_text d ('[' :: (ds ++ ']' :: ' ' :: c :: t)) =
          (pythonIntOfDigits ds, c :: t)) ∧
    (∀ (d : Int) (raw : List Char), hasLeadingBracketToken raw = false →
        parse_speaker_and_text d raw = (d, raw)) := by
  constructor
  · intro d ds c t hds hdig hc hn
    unfold parse_speaker_and_text
    rw [tagMatch_of_clean_payload ds c t hds hdig hc hn]
  · exact parse_default_of_no_token

/-- C1 witness: a concrete instance of each conjunct of
`claim1_prefix_decode`, including one with a fullwidth (non-ASCII) digit,
which Python's `\d` matches. -/
theorem claim1_prefix_decode_witness :
    parse_speaker_and_text 9 ('[' :: (['2', '7'] ++ ']' :: ' ' :: 'h' :: ['i']))
        = (pythonIntOfDigits ['2', '7'], 'h' :: ['i']) ∧
    parse_speaker_and_text 9 ('[' :: (['１'] ++ ']' :: ' ' :: 'h' :: ['i']))
        = (pythonIntOfDigits ['１'], 'h' :: ['i']) ∧
    parse_speaker_and_text 9 ['h', 'i'] = (9, ['h', 'i']) :=
  ⟨claim1_prefix_decode.1 9 ['2', '7'] 'h' ['i']
      (by decide) (by decide) (by decide) (by decide),
   claim1_prefix_decode.1 9 ['１'] 'h' ['i']
      (by decide) (by decide) (by decide) (by decide),
   claim1_prefix_decode.2 9 ['h', 'i'] (by decide)⟩

/-- C1 counterexample: the claim as stated fails for `t` containing a
newline (`"a\nb"`, the regex does not match and the raw payload comes back
verbatim under the default style id), for `t` starting with whitespace
(`" a"`, the leading space is eaten by `\s*`), and for `t` ending with a
newline (`"a\n"`, `$` excludes the trailing newline from group 2). -/
theorem claim1_counterexample :
    parse_speaker_and_text 7 ("[1] a\nb".toList) ≠ (1, "a\nb".toList) ∧
    parse_speaker_and_text 7 ("[1]  a".toList) ≠ (1, " a".toList) ∧
    parse_speaker_and_text 7 ("[1] a\n".toList) ≠ (1, "a\n".toList) := by
  refine ⟨?_, ?_, ?_⟩ <;> decide

/-- C2: handling any sequence of messages leaves the pipeline state (engine
handle and default style id) unchanged and gives each message exactly the
trace it would get on its own, so a synthesis failure on message `i` cannot
affect message `i+1`; moreover a synthesis error is caught inside the
handler, which records the error log and returns normally. -/
theorem claim2_failure_isolation :
    (∀ (env : AudioEnv) (st : NodeState) (msgs : List (List Char)),
        processAll env st msgs =
          (st, msgs.map fun m => (on_text_received env st m).2)) ∧
    (∀ (env : AudioEnv) (st : NodeState) (raw : List Char) (e : String),
        raw ≠ [] → (parse_speaker_and_text st.defaultStyleId raw).2 ≠ [] →
        st.tts (parse_speaker_and_text st.defaultStyleId raw).2
          (parse_speaker_and_text st.defaultStyleId raw).1 = .error e →
        (on_text_received env st raw).1 = st ∧
          Step.logError ∈ (on_text_received env st raw).2) := by
  constructor
  · exact processAll_state_and_traces
  · intro env st raw e h1 h2 h3
    rw [on_text_received_synth_error env st raw e h1 h2 h3]
    exact ⟨rfl, by simp⟩

/-- C2 witness: the second conjunct of `claim2_failure_isolation` at the
always-failing synthesizer and the payload of the spec scenario. -/
theorem claim2_failure_isolation_witness :
    (on_text_received failEnv failTTSNode ("エラー".toList)).1 = failTTSNode ∧
      Step.logError ∈ (on_text_received failEnv failTTSNode ("エラー".toList)).2 :=
  claim2_failure_isolation.2 failEnv failTTSNode ("エラー".toList)
    "synthesis error" (by decide) (by decide) rfl

/-- C3: when the synthesizer raises for the decoded text, the handler's
whole trace is the info log, the synthesis attempt and the error log — in
particular neither audio decoding nor playback happens; and in all cases
the trace is one of six shapes respecting the order
decode → synthesize → decode audio → play. -/
theorem claim3_order_and_no_play_on_synth_error :
    (∀ (env : AudioEnv) (st : NodeState) (raw : List Char) (e : String),
        raw ≠ [] → (parse_speaker_and_text st.defaultStyleId raw).2 ≠ [] →
        st.tts (parse_speaker_and_text st.defaultStyleId raw).2
          (parse_speaker_and_text st.defaultStyleId raw).1 = .error e →
        on_text_received env st raw =
          (st, [Step.logInfo (parse_speaker_and_text st.defaultStyleId raw).1
                  (parse_speaker_and_text st.defaultStyleId raw).2,
                Step.synthesize (parse_speaker_and_text st.defaultStyleId raw).2
                  (parse_speaker_and_text st.defaultStyleId raw).1,
                Step.logError])) ∧
    (∀ (env : AudioEnv) (st : NodeState) (raw : List Char),
        (on_text_received env st raw).2 = [] ∨
        (on_text_received env st raw).2 = [Step.logWarn] ∨
        (∃ t s, (on_text_received env st raw).2 =
          [Step.logInfo s t, Step.synthesize t s, Step.logError]) ∨
        (∃ t s w, (on_text_received env st raw).2 =
          [Step.logInfo s t, Step.synthesize t s, Step.decodeAudio w,
           Step.logError]) ∨
        (∃ t s w d r, (on_text_received env st raw).2 =
          [Step.logInfo s t, Step.synthesize t s, Step.decodeAudio w,
           Step.play d r, Step.logError]) ∨
        (∃ t s w d r, (on_text_received env st raw).2 =
          [Step.logInfo s t, Step.synthesize t s, Step.decodeAudio w,
           Step.play d r])) :=
  ⟨on_text_received_synth_error, on_text_received_shapes⟩

/-- C3 witness: the spec's failure scenario — the gateway raises for
`"エラー"`; the handler logs and returns without audio decoding or
playback. -/
theorem claim3_order_witness :
    on_text_received failEnv failTTSNode ("エラー".toList) =
      (failTTSNode, [Step.logInfo 0 ("エラー".toList),
                     Step.synthesize ("エラー".toList) 0, Step.logError]) := by
  have hp : parse_speaker_and_text failTTSNode.defaultStyleId ("エラー".toList)
      = (0, "エラー".toList) := by decide
  have h := claim3_order_and_no_play_on_synth_error.1 failEnv failTTSNode
    ("エラー".toList) "synthesis error" (by decide) (by decide) rfl
  rw [hp] at h
  exact h

/-- C4, amended: the empty payload is discarded with no step at all, but a
whitespace-only payload is NOT discarded: the regex does not match it, the
verbatim payload is nonempty text, and synthesis is invoked on it.  (The
original claim that `"   "` is discarded is refuted by
`claim4_counterexample`.) -/
theorem claim4_empty_vs_whitespace :
    (∀ (env : AudioEnv) (st : NodeState),
        on_text_received env st [] = (st, [])) ∧
    (∀ (env : AudioEnv) (st : NodeState) (raw : List Char),
        raw ≠ [] → raw.all pythonIsSpace = true →
        ∃ rest, (on_text_received env st raw).2 =
          Step.logInfo st.defaultStyleId raw ::
            Step.synthesize raw st.defaultStyleId :: rest) := by
  constructor
  · intro env st
    simp [on_text_received]
  · intro env st raw h1 h2
    have hparse : parse_speaker_and_text st.defaultStyleId raw
        = (st.defaultStyleId, raw) := by
      unfold parse_speaker_and_text
      rw [tagMatch_none_of_all_space raw h2]
    have h2' : (parse_speaker_and_text st.defaultStyleId raw).2 ≠ [] := by
      rw [hparse]
      exact h1
    obtain ⟨rest, hr⟩ := on_text_received_synth_attempt env st raw h1 h2'
    rw [hparse] at hr
    exact ⟨rest, hr⟩

/-- C4 witness: concrete instances of both conjuncts of
`claim4_empty_vs_whitespace`. -/
theorem claim4_empty_vs_whitespace_witness :
    on_text_received failEnv failTTSNode [] = (failTTSNode, []) ∧
    ∃ rest, (on_text_received failEnv failTTSNode ("   ".toList)).2 =
      Step.logInfo failTTSNode.defaultStyleId ("   ".toList) ::
        Step.synthesize ("   ".toList) failTTSNode.defaultStyleId :: rest :=
  ⟨claim4_empty_vs_whitespace.1 failEnv failTTSNode,
   claim4_empty_vs_whitespace.2 failEnv failTTSNode ("   ".toList)
     (by decide) (by decide)⟩

/-- C4 counterexample: the whitespace-only payload `"   "` is handed to the
synthesizer, contradicting the claim that it is discarded without invoking
synthesis. -/
theorem claim4_counterexample :
    Step.synthesize ("   ".toList) 0 ∈
      (on_text_received failEnv failTTSNode ("   ".toList)).2 := by
  decide

/-- C5, amended: the decoder itself is total and never fails; when the text
remaining after stripping the bracket prefix is empty, it is the caller
`on_text_received` that detects the empty text, logs a warning and discards
the message without synthesizing or playing.  (The original claim that the
decoder raises `EmptyTextError` is refuted by `claim5_counterexample`.) -/
theorem claim5_empty_text_checked_by_caller :
    ∀ (env : AudioEnv) (st : NodeState) (raw : List Char),
      raw ≠ [] → (parse_speaker_and_text st.defaultStyleId raw).2 = [] →
      on_text_received env st raw = (st, [Step.logWarn]) :=
  on_text_received_empty_text

/-- C5 witness: `claim5_empty_text_checked_by_caller` at the payload
`"[5]"`. -/
theorem claim5_empty_text_witness :
    on_text_received failEnv failTTSNode ("[5]".toList) =
      (failTTSNode, [Step.logWarn]) :=
  claim5_empty_text_checked_by_caller failEnv failTTSNode ("[5]".toList)
    (by decide) (by decide)

/-- C5 counterexample: on the payload `"[5]"` the decoder returns the pair
`(5, "")` normally — it does not fail; the empty-text condition is only
detected by the caller. -/
theorem claim5_counterexample :
    parse_speaker_and_text 3 ("[5]".toList) = (5, []) := by
  decide

/-- C6: searching any tree that contains no entry with the target name — in
particular an empty directory — makes each of the three asset searches fail
with exactly the not-found error carrying the searched name and root, and
with no other error kind (the result type admits no other error). -/
theorem claim6_asset_not_found (engineDir libName vvm : String)
    (fs : List Dirent)
    (h1 : occursIn libName fs = false)
    (h2 : occursIn openJtalkDictDirName fs = false)
    (h3 : occursIn vvm fs = false) :
    find_onnxruntime_lib engineDir fs libName =
        .error ⟨"onnxruntime", engineDir, libName⟩ ∧
    find_openjtalk_dict_dir engineDir fs =
        .error ⟨"openjtalk_dict", engineDir, openJtalkDictDirName⟩ ∧
    find_vvm_path engineDir fs vvm = .error ⟨"vvm", engineDir, vvm⟩ := by
  refine ⟨?_, ?_, ?_⟩
  · unfold find_onnxruntime_lib
    rw [searchFiles_walkDir_none libName engineDir fs h1]
  · unfold find_openjtalk_dict_dir
    rw [searchDirs_walkDir_none openJtalkDictDirName engineDir fs h2]
  · unfold find_vvm_path
    rw [searchFiles_walkDir_none vvm engineDir fs h3]

/-- C6 witness: `claim6_asset_not_found` on the empty directory. -/
theorem claim6_asset_not_found_witness :
    occursIn "0.vvm" ([] : List Dirent) = false ∧
    find_vvm_path "/voicevox_engine" [] "0.vvm" =
      .error ⟨"vvm", "/voicevox_engine", "0.vvm"⟩ :=
  ⟨by simp [occursIn],
   (claim6_asset_not_found "/voicevox_engine" "onnxruntime.so" "0.vvm" []
     (by simp [occursIn]) (by simp [occursIn]) (by simp [occursIn])).2.2⟩

/-- C7: asset resolution over a fixed tree is deterministic — running the
same search twice yields the same result — and each search returns the path
of the first `os.walk` triple (in traversal order) containing the target. -/
theorem claim7_idempotent_first_match (engineDir libName vvm : String)
    (fs : List Dirent) :
    (find_onnxruntime_lib engineDir fs libName =
        find_onnxruntime_lib engineDir fs libName) ∧
    (find_openjtalk_dict_dir engineDir fs =
        find_openjtalk_dict_dir engineDir fs) ∧
    (find_vvm_path engineDir fs vvm = find_vvm_path engineDir fs vvm) ∧
    (find_onnxruntime_lib engineDir fs libName =
        match (walkDir engineDir fs).find?
            (fun tr => decide (libName ∈ tr.2.2)) with
        | some tr => .ok (tr.1 ++ "/" ++ libName)
        | none => .error ⟨"onnxruntime", engineDir, libName⟩) ∧
    (find_openjtalk_dict_dir engineDir fs =
        match (walkDir engineDir fs).find?
            (fun tr => decide (openJtalkDictDirName ∈ tr.2.1)) with
        | some tr => .ok (tr.1 ++ "/" ++ openJtalkDictDirName)
        | none => .error ⟨"openjtalk_dict", engineDir, openJtalkDictDirName⟩) := by
  refine ⟨rfl, rfl, rfl, ?_, ?_⟩
  · unfold find_onnxruntime_lib
    rw [searchFiles_eq_find]
    cases hf : (walkDir engineDir fs).find?
        (fun tr => decide (libName ∈ tr.2.2)) with
    | none => simp
    | some tr => simp
  · unfold find_openjtalk_dict_dir
    rw [searchDirs_eq_find]
    cases hf : (walkDir engineDir fs).find?
        (fun tr => decide (openJtalkDictDirName ∈ tr.2.1)) with
    | none => simp
    | some tr => simp

/-- C8: the bracket selector is recognized only at the very start — a
payload opening with any character that is neither whitespace nor `[` is
returned verbatim under the default style id, whatever bracket tokens it
contains later — and when several bracket tokens are present only the first
is honored, the rest staying inside the returned text untouched. -/
theorem claim8_anchored_first_token_only :
    (∀ (d : Int) (c : Char) (u : List Char),
        pythonIsSpace c = false → c ≠ '[' →
        parse_speaker_and_text d (c :: u) = (d, c :: u)) ∧
    (∀ (d : Int) (ds ds2 v : List Char),
        ds ≠ [] → (∀ x ∈ ds, pythonIsDigit x = true) →
        '\n' ∉ '[' :: (ds2 ++ ']' :: v) →
        parse_speaker_and_text d
            ('[' :: (ds ++ ']' :: ' ' :: '[' :: (ds2 ++ ']' :: v))) =
          (pythonIntOfDigits ds, '[' :: (ds2 ++ ']' :: v))) := by
  constructor
  · intro d c u hc hb
    exact parse_default_of_no_token d (c :: u) (no_token_of_head c u hc hb)
  · intro d ds ds2 v hds hdig hn
    unfold parse_speaker_and_text
    rw [tagMatch_of_clean_payload ds '[' (ds2 ++ ']' :: v) hds hdig
      (by decide) hn]

/-- C8 witness: concrete instances of both conjuncts of
`claim8_anchored_first_token_only`: a mid-string token is not a selector,
and of two tokens only the first is honored. -/
theorem claim8_anchored_witness :
    parse_speaker_and_text 6 ('x' :: (" [1] y".toList)) =
        (6, 'x' :: (" [1] y".toList)) ∧
    parse_speaker_and_text 6
        ('[' :: (['1'] ++ ']' :: ' ' :: '[' :: (['2'] ++ ']' :: (" hi".toList)))) =
      (pythonIntOfDigits ['1'], '[' :: (['2'] ++ ']' :: (" hi".toList))) :=
  ⟨claim8_anchored_first_token_only.1 6 'x' (" [1] y".toList)
      (by decide) (by decide),
   claim8_anchored_first_token_only.2 6 ['1'] ['2'] (" hi".toList)
      (by decide) (by decide) (by decide)⟩

/-- C9: the decoder is total — on every input it returns a pair without
failing, either the default pair `(d, raw)` or the matched pair — and a
successful match always carries a non-negative style id, because the
capture group consists of digits only. -/
theorem claim9_total_nonneg_decoder :
    ∀ (d : Int) (raw : List Char),
      parse_speaker_and_text d raw = (d, raw) ∨
      ∃ n t, speakerTagMatch raw = some (n, t) ∧
        parse_speaker_and_text d raw = (n, t) ∧ 0 ≤ n := by
  intro d raw
  cases hm : speakerTagMatch raw with
  | none =>
    left
    unfold parse_speaker_and_text
    rw [hm]
  | some p =>
    obtain ⟨n, t⟩ := p
    right
    refine ⟨n, t, rfl, ?_, tagMatch_nonneg raw n t hm⟩
    unfold parse_speaker_and_text
    rw [hm]

/-- C10: a payload with a leading bracket token whose text contains a
newline before the end (such as `"[1] hello\nworld"`) defeats the regex —
`.*` cannot span the newline — so the decoder falls back to the default
style id and returns the entire raw message, bracket token included. -/
theorem claim10_newline_blocks_match :
    ∀ (d : Int) (ds : List Char) (c : Char) (t : List Char),
      ds ≠ [] → (∀ x ∈ ds, pythonIsDigit x = true) → pythonIsSpace c = false →
      '\n' ∈ (c :: t).dropLast →
      parse_speaker_and_text d ('[' :: (ds ++ ']' :: ' ' :: c :: t)) =
        (d, '[' :: (ds ++ ']' :: ' ' :: c :: t)) := by
  intro d ds c t hds hdig hc hn
  unfold parse_speaker_and_text
  rw [tagMatch_none_of_inner_newline ds c t hds hdig hc hn]

/-- C10 witness: `claim10_newline_blocks_match` at the payload
`"[1] hello\nworld"`. -/
theorem claim10_newline_witness :
    parse_speaker_and_text 0
        ('[' :: (['1'] ++ ']' :: ' ' :: 'h' :: ("ello\nworld".toList))) =
      (0, '[' :: (['1'] ++ ']' :: ' ' :: 'h' :: ("ello\nworld".toList))) :=
  claim10_newline_blocks_match 0 ['1'] 'h' ("ello\nworld".toList)
    (by decide) (by decide) (by decide) (by decide)

end VoicevoxRos2
